import Mathlib

/-!
Verification development for the edge selection and connection-iteration
engine of `bluepysnap/edges/edge_population.py`.

The backend (libsonata) is modelled by a concrete edge table: edge IDs are
positions `0 .. size-1` in a list of `(source node, target node)` pairs,
selections are flattened ascending edge-ID lists, and attribute and
dynamics columns are functions from names and edge IDs to values.
Randomized operations (`np.random.choice`, `np.random.shuffle`) are
parameterized by oracle functions, so theorems quantify over every
possible random outcome.
-/

/-- Numpy dtypes that matter for this development. -/
inductive Dtype where
  | int64
  | uint32
  | float64
  | object
deriving DecidableEq

/-- Errors raised by the code (all `BluepySnapError` in Python, told apart by
their message). `valueError` stands for the numpy conversion error raised
while coercing a non-integer entry to an ID array. -/
inductive Err where
  | sourceOrTargetRequired
  | mutuallyExclusive
  | invalidIdType
  | unknownProperties (props : Finset String)
  | noSuchProperty (name : String)
  | valueError
deriving DecidableEq

/-- An element of a plain Python list passed to `ids`: either an untyped
integer or a typed `CircuitEdgeId` carrying a population name and a local id. -/
inductive IdEntry where
  | intId (i : Nat)
  | edgeId (population : String) (id : Nat)
deriving DecidableEq

def IdEntry.isInt : IdEntry → Bool
  | .intId _ => true
  | .edgeId _ _ => false

def IdEntry.isEdgeId : IdEntry → Bool
  | .intId _ => false
  | .edgeId _ _ => true

/-- Extract the integer values of a list of entries (used to state theorems
about lists that hold only untyped integers). -/
def intsOf (xs : List IdEntry) : List Nat :=
  xs.filterMap (fun e => match e with
    | .intId i => some i
    | .edgeId _ _ => none)

/-- The `properties` argument of `get`: a scalar property name or a list of
property names. -/
inductive Properties where
  | scalar (name : String)
  | listP (names : List String)
deriving DecidableEq

/-- Result of `_get`: a raw edge-ID array (when `properties is None`), a
pandas Series (name, dtype, index, values) or a pandas DataFrame
(index, and per-column name, dtype and values). -/
inductive GetResult where
  | ids (xs : List Nat)
  | series (name : String) (dtype : Dtype) (index : List Nat) (values : List Int)
  | frame (index : List Nat) (data : List (String × Dtype × List Int))
deriving DecidableEq

/-- Modelled from the spec: a query value is a 2-tuple range (inclusive
bounds), a scalar, or a collection (membership test). -/
inductive QVal where
  | vrange (lo hi : Int)
  | scalar (v : Int)
  | oneOf (vs : List Int)

/-- Modelled from the spec: a query is a mapping whose entries bind a
property name to a value, or bind the reserved combinators to a list of
nested query mappings (`bluepysnap/query.py` is not part of the sources
here). A mapping is its list of entries. -/
inductive QEntry where
  | propCond (name : String) (v : QVal)
  | orComb (qs : List (List QEntry))
  | andComb (qs : List (List QEntry))

/-- A query mapping: list of its entries. -/
abbrev Query := List QEntry

mutual
/-- Modelled from the spec: `query.get_properties` walks the (possibly
nested) query mapping and collects the set of all property names referenced
anywhere, excluding the reserved combinator keys. -/
def getPropsEntry : QEntry → Finset String
  | .propCond n _ => {n}
  | .orComb qs => getPropsLists qs
  | .andComb qs => getPropsLists qs

def getPropsLists : List (List QEntry) → Finset String
  | [] => ∅
  | q :: rest => getPropsQuery q ∪ getPropsLists rest

def getPropsQuery : List QEntry → Finset String
  | [] => ∅
  | e :: rest => getPropsEntry e ∪ getPropsQuery rest
end

/-- The `group` argument of `ids`, as a tagged variant over the shapes the
Python code dispatches on with `isinstance`: `None`, a `CircuitEdgeIds`
collection, a numpy array, a query mapping, or anything else (a plain list,
or a single value wrapped by `utils.ensure_list` into a one-element list). -/
inductive IdsGroup where
  | all
  | cids (xs : List (String × Nat))
  | arr (xs : List Nat)
  | qry (q : Query)
  | other (xs : List IdEntry)

/-- Oracles standing for the process-wide numpy random source:
`pickSource`/`pickTarget` stand for `np.random.choice(node_ids, size=3,
replace=False)` inside the range-size estimation, `shufflePrimary` for
`np.random.shuffle` of the primary node-ID array and `shufflePairs` for
`np.random.shuffle` of the per-primary-node candidate pairs. -/
structure Oracles where
  pickSource : List Nat → List Nat
  pickTarget : List Nat → List Nat
  shufflePrimary : List Nat → List Nat
  shufflePairs : Nat → List (Nat × Nat) → List (Nat × Nat)

/-- The backend edge population: the edge table (edge id = list position,
entry = (source node id, target node id)), the attribute and dynamics
columns with their dtypes, and the population names. -/
structure EdgeTable where
  name : String
  srcPopName : String
  tgtPopName : String
  edges : List (Nat × Nat)
  attrNames : List String
  dynNames : List String
  attrDtype : String → Dtype
  attrVal : String → Nat → Int
  dynDtype : String → Dtype
  dynVal : String → Nat → Int

/-- `EdgePopulation.size`: the population size. -/
def EdgeTable.size (tbl : EdgeTable) : Nat := tbl.edges.length

def srcOf (tbl : EdgeTable) (e : Nat) : Nat := (tbl.edges.getD e (0, 0)).1

def tgtOf (tbl : EdgeTable) (e : Nat) : Nat := (tbl.edges.getD e (0, 0)).2

/-- Backend `select_all()`, flattened: every edge ID in ascending order. -/
def select_all (tbl : EdgeTable) : List Nat := List.range tbl.size

/-- Backend `efferent_edges(node_ids)`, flattened: the ascending edge IDs
whose source node lies in `node_ids`. -/
def efferent_edges (tbl : EdgeTable) (node_ids : List Nat) : List Nat :=
  (List.range tbl.size).filter (fun e => node_ids.contains (srcOf tbl e))

/-- Backend `afferent_edges(node_ids)`, flattened. -/
def afferent_edges (tbl : EdgeTable) (node_ids : List Nat) : List Nat :=
  (List.range tbl.size).filter (fun e => node_ids.contains (tgtOf tbl e))

/-- Backend `connecting_edges(source_ids, target_ids)`, flattened. -/
def connecting_edges (tbl : EdgeTable) (source_ids target_ids : List Nat) : List Nat :=
  (List.range tbl.size).filter
    (fun e => source_ids.contains (srcOf tbl e) && target_ids.contains (tgtOf tbl e))

/-- Backend `source_nodes(selection)`. -/
def source_nodes (tbl : EdgeTable) (selection : List Nat) : List Nat :=
  selection.map (srcOf tbl)

/-- Backend `target_nodes(selection)`. -/
def target_nodes (tbl : EdgeTable) (selection : List Nat) : List Nat :=
  selection.map (tgtOf tbl)

/-- `DYNAMICS_PREFIX`. -/
def dynPfx : String := "@dynamics:"

/-- `Edge.SOURCE_NODE_ID`. -/
def sourceNodeIdName : String := "@source_node"

/-- `Edge.TARGET_NODE_ID`. -/
def targetNodeIdName : String := "@target_node"

/-- `_dynamics_params_names`: the dynamics attribute names carrying the
reserved prefix. -/
def dynamicsParamsNames (tbl : EdgeTable) : List String :=
  tbl.dynNames.map (fun n => dynPfx ++ n)

/-- `property_names`: union of attribute, prefixed dynamics, and the two
topological names. -/
def property_names (tbl : EdgeTable) : Finset String :=
  tbl.attrNames.toFinset ∪ (dynamicsParamsNames tbl).toFinset ∪
    {sourceNodeIdName, targetNodeIdName}

/-- Insertion sort (ascending), standing for numpy's sorting inside
`np.unique` and `np.median`. -/
def insertSorted (x : Nat) : List Nat → List Nat
  | [] => [x]
  | y :: ys => if x ≤ y then x :: y :: ys else y :: insertSorted x ys

def sortNat (xs : List Nat) : List Nat := xs.foldr insertSorted []

/-- `np.unique(xs)`: the sorted distinct values. -/
def npUnique (xs : List Nat) : List Nat := (sortNat xs).dedup

/-- `np.unique(xs, return_counts=True)` stacked and transposed: the sorted
distinct values paired with their multiplicities. -/
def npUniqueCounts (xs : List Nat) : List (Nat × Nat) :=
  (npUnique xs).map (fun v => (v, xs.count v))

/-- The number of maximal contiguous ranges of a flattened selection:
`len(selection.ranges)`. -/
def numRanges : List Nat → Nat
  | [] => 0
  | [_] => 1
  | a :: b :: rest => (if b = a + 1 then 0 else 1) + numRanges (b :: rest)

/-- `np.median` over natural numbers, computed exactly in `ℚ`: middle
element of the sorted list, or the average of the two middle elements. -/
def npMedian (xs : List Nat) : ℚ :=
  let s := sortNat xs
  let n := s.length
  if n % 2 = 1 then ((s.getD (n / 2) 0 : ℕ) : ℚ)
  else (((s.getD (n / 2 - 1) 0 : ℕ) : ℚ) + ((s.getD (n / 2) 0 : ℕ) : ℚ)) / 2

/-- `_is_empty(xs)`: `(xs is not None) and (len(xs) == 0)`. -/
def _is_empty : Option (List Nat) → Bool
  | none => false
  | some xs => xs.isEmpty

/-- `_estimate_range_size(func, node_ids, n=3)`: median count of index
second-level ranges over up to 3 node IDs sampled from the list. `pick`
stands for `np.random.choice(node_ids, size=3, replace=False)`. -/
def _estimate_range_size (func : Nat → List Nat) (node_ids : List Nat)
    (pick : List Nat → List Nat) : ℚ :=
  let ids := if 3 < node_ids.length then pick node_ids else node_ids
  npMedian (ids.map (fun i => numRanges (func i)))

/-- Concatenation of a list of chunks. -/
def concatAll : List (List α) → List α
  | [] => []
  | x :: xs => x ++ concatAll xs

/-- The part sizes used by `np.array_split(xs, k)`: `len % k` parts of size
`len / k + 1` followed by the remaining parts of size `len / k`. -/
def splitSizes (l k : Nat) : List Nat :=
  (List.range k).map (fun i => if i < l % k then l / k + 1 else l / k)

def takeDrop : List α → List Nat → List (List α)
  | _, [] => []
  | xs, n :: ns => xs.take n :: takeDrop (xs.drop n) ns

/-- `np.array_split(xs, k)`. -/
def arraySplit (xs : List α) (k : Nat) : List (List α) :=
  takeDrop xs (splitSizes xs.length k)

/-- `_get_property(prop, selection)`: values of one property aligned with
the flattened selection, together with the dtype the resulting array has
(node-ID columns go through `utils.ensure_ids`, hence int64; attribute and
dynamics columns keep their backend dtype). -/
def _get_property (tbl : EdgeTable) (prop : String) (selection : List Nat) :
    Except Err (Dtype × List Int) :=
  if prop = sourceNodeIdName then
    .ok (Dtype.int64, selection.map (fun e => (Int.ofNat (srcOf tbl e))))
  else if prop = targetNodeIdName then
    .ok (Dtype.int64, selection.map (fun e => (Int.ofNat (tgtOf tbl e))))
  else if prop ∈ tbl.attrNames then
    .ok (tbl.attrDtype prop, selection.map (tbl.attrVal prop))
  else if prop ∈ dynamicsParamsNames tbl then
    .ok (tbl.dynDtype (prop.drop dynPfx.length),
      selection.map (tbl.dynVal (prop.drop dynPfx.length)))
  else .error (.noSuchProperty prop)

/-- The column-filling loop of `_get` for a list of properties: the first
failing property aborts the whole call. -/
def getColumns (tbl : EdgeTable) (selection : List Nat) :
    List String → Except Err (List (String × Dtype × List Int))
  | [] => .ok []
  | p :: ps =>
    match _get_property tbl p selection with
    | .error e => .error e
    | .ok dv =>
      match getColumns tbl selection ps with
      | .error e => .error e
      | .ok rest => .ok ((p, dv.1, dv.2) :: rest)

/-- `_get(selection, properties)`: an edge-ID array, Series or DataFrame.
On an empty selection the code returns `pd.DataFrame(columns=properties)`
(requested columns, object dtype, no rows) or
`pd.Series(name=properties, dtype=np.float64)`. -/
def _get (tbl : EdgeTable) (selection : List Nat) (properties : Option Properties) :
    Except Err GetResult :=
  let edge_ids := selection
  match properties with
  | none => .ok (.ids edge_ids)
  | some (.listP ps) =>
    if edge_ids.length = 0 then
      .ok (.frame [] (ps.map (fun p => (p, Dtype.object, ([] : List Int)))))
    else
      match getColumns tbl edge_ids ps with
      | .error e => .error e
      | .ok cols => .ok (.frame edge_ids cols)
  | some (.scalar p) =>
    if edge_ids.length = 0 then
      .ok (.series p Dtype.float64 [] [])
    else
      match _get_property tbl p edge_ids with
      | .error e => .error e
      | .ok dv => .ok (.series p dv.1 edge_ids dv.2)

/-- Modelled from the spec: `utils.ensure_ids` (not among the sources here)
coerces the result to a fixed unsigned-integer array type; a leftover typed
entry cannot be coerced and fails with a numpy conversion error, which is
not the `InvalidIdType` error. -/
def ensure_ids (xs : List IdEntry) : Except Err (List Nat) :=
  if xs.all IdEntry.isInt then .ok (intsOf xs) else .error .valueError

/-- The chunk size `int(1e8)` of `_edge_ids_by_filter`. -/
def chunkSize : Nat := 100000000

/-- `_edge_ids_by_filter(queries, raise_missing_prop)`. Returns the list of
property sets materialized per chunk (the `self.get(chunk, ...)` calls, in
order) alongside the outcome, so that theorems can speak about what was
read from the backend. `resolve` stands for `query.resolve_ids` (the mask
computation, external to these sources). -/
def _edge_ids_by_filter (tbl : EdgeTable)
    (resolve : List Nat → Finset String → Query → List Bool)
    (queries : Query) (raise_missing_prop : Bool) :
    List (Finset String) × Except Err (List Nat) :=
  let properties := getPropsQuery queries
  let unknown_props := properties \ property_names tbl
  if raise_missing_prop ∧ unknown_props ≠ ∅ then
    ([], .error (.unknownProperties unknown_props))
  else
    let ids0 := select_all tbl
    let chunks := arraySplit ids0 (1 + ids0.length / chunkSize)
    (chunks.map (fun _ => properties \ unknown_props),
      .ok (concatAll (chunks.map (fun chunk =>
        (chunk.zip (resolve chunk (properties \ unknown_props) queries)).filterMap
          (fun p => if p.2 then some p.1 else none)))))

/-- The `else` branch of the `ids` dispatch: `utils.ensure_list(group)` has
produced a plain list; if its first element is a `CircuitEdgeId` then every
element must be one (the list comprehension touches `.population` on each
element and an untyped element raises, re-raised as the `InvalidIdType`
error); otherwise the list passes through unchanged. -/
def ids_list_branch (popName : String) (xs : List IdEntry) :
    Except Err (List IdEntry) :=
  match xs.head? with
  | some (.edgeId _ _) =>
    if xs.all IdEntry.isEdgeId then
      .ok (xs.filterMap (fun e => match e with
        | .edgeId p i => if p = popName then some (IdEntry.intId i) else none
        | .intId _ => none))
    else .error .invalidIdType
  | _ => .ok xs

/-- The dispatch of `ids` on the shape of `group`: `None`, `CircuitEdgeIds`
(population-filtered extraction), numpy array, query mapping, or plain
list. -/
def ids_dispatch (tbl : EdgeTable)
    (resolve : List Nat → Finset String → Query → List Bool)
    (raise_missing_property : Bool) : IdsGroup → Except Err (List IdEntry)
  | .all => .ok ((select_all tbl).map IdEntry.intId)
  | .cids xs =>
    .ok ((xs.filter (fun p => p.1 == tbl.name)).map (fun p => IdEntry.intId p.2))
  | .arr xs => .ok (xs.map IdEntry.intId)
  | .qry q =>
    match (_edge_ids_by_filter tbl resolve q raise_missing_property).2 with
    | .error e => .error e
    | .ok r => .ok (r.map IdEntry.intId)
  | .other xs => ids_list_branch tbl.name xs

/-- `ids(group, limit, sample, raise_missing_property)`: dispatch, then
random sampling of `min(sample, len(result))` elements without replacement
when `sample` is given (skipped on an empty result), then truncation to the
first `limit` elements, then `utils.ensure_ids`. `choose` stands for
`np.random.choice(result, k, replace=False)`. -/
def ids (tbl : EdgeTable)
    (resolve : List Nat → Finset String → Query → List Bool)
    (choose : List IdEntry → Nat → List IdEntry)
    (group : IdsGroup) (limit sample : Option Nat) (raise_missing_property : Bool) :
    Except Err (List Nat) :=
  match ids_dispatch tbl resolve raise_missing_property group with
  | .error e => .error e
  | .ok result =>
    let r1 := match sample with
      | none => result
      | some s => if 0 < result.length then choose result (min s result.length) else result
    let r2 := match limit with
      | none => r1
      | some l => r1.take l
    ensure_ids r2

/-- `get(edge_ids, properties)`: resolve through `ids`, wrap in a Selection
(which flattens back to the same IDs) and call `_get`. -/
def EdgeTable.get (tbl : EdgeTable)
    (resolve : List Nat → Finset String → Query → List Bool)
    (choose : List IdEntry → Nat → List IdEntry)
    (edge_ids : IdsGroup) (properties : Option Properties) : Except Err GetResult :=
  match ids tbl resolve choose edge_ids none none true with
  | .error e => .error e
  | .ok eids => _get tbl eids properties

/-- `afferent_nodes(target, unique)`; `target` arrives already resolved to
a node-ID array or `None` meaning all edges. -/
def afferent_nodes (tbl : EdgeTable) (target : Option (List Nat)) (unique : Bool) :
    List Nat :=
  let selection := match target with
    | some t => afferent_edges tbl t
    | none => select_all tbl
  let result := source_nodes tbl selection
  if unique then npUnique result else result

/-- `efferent_nodes(source, unique)`. -/
def efferent_nodes (tbl : EdgeTable) (source : Option (List Nat)) (unique : Bool) :
    List Nat :=
  let selection := match source with
    | some s => efferent_edges tbl s
    | none => select_all tbl
  let result := target_nodes tbl selection
  if unique then npUnique result else result

/-- Python truthiness of the `properties` argument (`if properties:`):
`None`, the empty string and the empty list are falsy. -/
def propsTruthy : Option Properties → Bool
  | none => false
  | some (.scalar s) => !s.isEmpty
  | some (.listP l) => !l.isEmpty

/-- `pathway_edges(source, target, properties)`; `source`/`target` arrive
already resolved to node-ID arrays or `None`. -/
def pathway_edges (tbl : EdgeTable) (source target : Option (List Nat))
    (properties : Option Properties) : Except Err GetResult :=
  match source, target with
  | none, none => .error .sourceOrTargetRequired
  | _, _ =>
    let selection := match source, target with
      | none, some t => afferent_edges tbl t
      | some s, none => efferent_edges tbl s
      | some s, some t => connecting_edges tbl s t
      | none, none => []
    if propsTruthy properties then _get tbl selection properties
    else .ok (.ids selection)

/-- Iteration direction chosen by `_optimal_direction`. -/
inductive Direction where
  | source
  | target
deriving DecidableEq

/-- `_optimal_direction()` (the nested helper of `_iter_connections`):
"target" when only the target side is constrained, "source" when only the
source side is, and otherwise the side whose sampled median index-range
count is smaller ("target" on ties). -/
def _optimal_direction (tbl : EdgeTable) (o : Oracles)
    (source_node_ids target_node_ids : Option (List Nat)) : Except Err Direction :=
  match source_node_ids, target_node_ids with
  | none, none => .error .sourceOrTargetRequired
  | none, some _ => .ok .target
  | some _, none => .ok .source
  | some s, some t =>
    let range_size_source :=
      _estimate_range_size (fun i => efferent_edges tbl [i]) s o.pickSource
    let range_size_target :=
      _estimate_range_size (fun i => afferent_edges tbl [i]) t o.pickTarget
    .ok (if range_size_source < range_size_target then .source else .target)

/-- `2 ** 32`, the modulus of the `astype(np.uint32)` cast. -/
def u32Mod : Nat := 4294967296

/-- The candidate (connected node, edge count) pairs scanned for one
primary node: connected nodes with multiplicities via the backend accessor
with `unique=False`, counted by distinct value, cast to uint32, filtered by
the secondary constraint when present, then shuffled when asked. -/
def candidatePairs (tbl : EdgeTable) (o : Oracles) (dir : Direction)
    (secondary : Option (List Nat)) (shuffle : Bool) (k : Nat) : List (Nat × Nat) :=
  let connected := match dir with
    | .target => afferent_nodes tbl (some [k]) false
    | .source => efferent_nodes tbl (some [k]) false
  let pairs1 := (npUniqueCounts connected).map (fun p => (p.1 % u32Mod, p.2 % u32Mod))
  let pairs2 := match secondary with
    | none => pairs1
    | some s => pairs1.filter (fun p => s.contains p.1)
  if shuffle then o.shufflePairs k pairs2 else pairs2

/-- The inner emission loop over candidate pairs, with the running set of
already-used secondary node IDs: skip a used candidate, and in unique mode
record the emitted candidate and break after the first acceptance. -/
def emitPairs (unique : Bool) : List Nat → List (Nat × Nat) →
    List (Nat × Nat) × List Nat
  | used, [] => ([], used)
  | used, (v, c) :: rest =>
    if unique = true ∧ v ∈ used then emitPairs unique used rest
    else if unique then ([(v, c)], v :: used)
    else
      let r := emitPairs unique used rest
      ((v, c) :: r.1, r.2)

/-- Orient an emitted (secondary node, count) pair into the yielded
(source, target, count) triple for the given direction and primary node. -/
def tripleOf (dir : Direction) (k : Nat) (p : Nat × Nat) : Nat × Nat × Nat :=
  match dir with
  | .target => (p.1, k, p.2)
  | .source => (k, p.1, p.2)

/-- The outer loop of `_iter_connections` over the primary node IDs,
threading the used-secondary set. -/
def iterLoop (tbl : EdgeTable) (o : Oracles) (dir : Direction)
    (secondary : Option (List Nat)) (unique shuffle : Bool) :
    List Nat → List Nat → List (Nat × Nat × Nat)
  | [], _ => []
  | k :: rest, used =>
    let r := emitPairs unique used (candidatePairs tbl o dir secondary shuffle k)
    r.1.map (tripleOf dir k) ++ iterLoop tbl o dir secondary unique shuffle rest r.2

/-- `_iter_connections(source_node_ids, target_node_ids, unique_node_ids,
shuffle)`: the generator body, as the list of yielded triples (or the error
its first advance raises). -/
def _iter_connections (tbl : EdgeTable) (o : Oracles)
    (source_node_ids target_node_ids : Option (List Nat))
    (unique_node_ids shuffle : Bool) : Except Err (List (Nat × Nat × Nat)) :=
  if _is_empty source_node_ids || _is_empty target_node_ids then .ok []
  else
    match _optimal_direction tbl o source_node_ids target_node_ids with
    | .error e => .error e
    | .ok direction =>
      let primary0 := match direction with
        | .target => target_node_ids.getD []
        | .source => source_node_ids.getD []
      let secondary0 := match direction with
        | .target => source_node_ids
        | .source => target_node_ids
      let primary1 := npUnique primary0
      let primary2 := if shuffle then o.shufflePrimary primary1 else primary1
      let secondary1 := secondary0.map npUnique
      .ok (iterLoop tbl o direction secondary1 unique_node_ids shuffle primary2 [])

/-- The wrapper chosen by `iter_connections` around the generator. -/
inductive IterMode where
  | plain
  | withCount
  | withIds
deriving DecidableEq

/-- The value `iter_connections` returns at call time: the not-yet-advanced
generator, packaging the resolved arguments and the chosen wrapper. -/
structure ConnIterator where
  tbl : EdgeTable
  oracles : Oracles
  src : Option (List Nat)
  tgt : Option (List Nat)
  uniqueNodeIds : Bool
  shuffle : Bool
  mode : IterMode

/-- The fully-consumed output of the iterator, after the wrapper tagged
node IDs with their population names (`CircuitNodeId`), kept the edge
count, attached the `CircuitEdgeIds` of the exact pair, or dropped the
count. -/
inductive IterOut where
  | plain (pairs : List ((String × Nat) × (String × Nat)))
  | counts (triples : List ((String × Nat) × (String × Nat) × Nat))
  | withEdgeIds (triples : List ((String × Nat) × (String × Nat) × List (String × Nat)))
deriving DecidableEq

/-- `iter_connections(source, target, unique_node_ids, shuffle,
return_edge_ids, return_edge_count)`: the eager phase. The mutual-
exclusivity check runs at call time; the generator is returned without
being advanced. `source`/`target` arrive already resolved. -/
def iter_connections (tbl : EdgeTable) (o : Oracles)
    (source target : Option (List Nat))
    (unique_node_ids shuffle return_edge_ids return_edge_count : Bool) :
    Except Err ConnIterator :=
  if return_edge_ids && return_edge_count then .error .mutuallyExclusive
  else
    .ok { tbl := tbl, oracles := o, src := source, tgt := target,
          uniqueNodeIds := unique_node_ids, shuffle := shuffle,
          mode := if return_edge_count then .withCount
                  else if return_edge_ids then .withIds
                  else .plain }

/-- Consuming the iterator: the generator body runs (raising, if at all,
only now), then each triple goes through the selected wrapper. The
`withIds` wrapper recomputes `pair_edges(source_id, target_id)`, i.e. the
connecting edges of the exact pair. -/
def runConnIterator (it : ConnIterator) : Except Err IterOut :=
  match _iter_connections it.tbl it.oracles it.src it.tgt it.uniqueNodeIds it.shuffle with
  | .error e => .error e
  | .ok triples =>
    .ok (match it.mode with
      | .withCount => .counts (triples.map (fun t =>
          ((it.tbl.srcPopName, t.1), (it.tbl.tgtPopName, t.2.1), t.2.2)))
      | .withIds => .withEdgeIds (triples.map (fun t =>
          ((it.tbl.srcPopName, t.1), (it.tbl.tgtPopName, t.2.1),
            (connecting_edges it.tbl [t.1] [t.2.1]).map (fun e => (it.tbl.name, e)))))
      | .plain => .plain (triples.map (fun t =>
          ((it.tbl.srcPopName, t.1), (it.tbl.tgtPopName, t.2.1)))))

/-- The projection of a yielded triple that lies on the secondary side. -/
def secondaryOf (dir : Direction) (t : Nat × Nat × Nat) : Nat :=
  match dir with
  | .target => t.1
  | .source => t.2.1

/-- The projection of a yielded triple that lies on the primary side. -/
def primaryOf (dir : Direction) (t : Nat × Nat × Nat) : Nat :=
  match dir with
  | .target => t.2.1
  | .source => t.1

/-- A concrete four-edge population used by the witnesses: node 0 projects
to nodes 5 (twice) and 6, node 3 projects to node 5. -/
def pop0 : EdgeTable :=
  { name := "edges0"
  , srcPopName := "cellsA"
  , tgtPopName := "cellsB"
  , edges := [(0, 5), (0, 6), (0, 5), (3, 5)]
  , attrNames := ["weight"]
  , dynNames := ["param1"]
  , attrDtype := fun _ => Dtype.float64
  , attrVal := fun _ e => Int.ofNat e
  , dynDtype := fun _ => Dtype.float64
  , dynVal := fun _ _ => 0 }

/-- Deterministic oracles used by the witnesses: identity shuffles and
prefix sampling. -/
def oracle0 : Oracles :=
  { pickSource := fun xs => xs.take 3
  , pickTarget := fun xs => xs.take 3
  , shufflePrimary := fun xs => xs
  , shufflePairs := fun _ ps => ps }

/-- A trivial mask oracle for the witnesses: matches no row. -/
def resolve0 : List Nat → Finset String → Query → List Bool := fun _ _ _ => []

/-- A deterministic sampling oracle for the witnesses: the first `k`
elements. -/
def choose0 : List IdEntry → Nat → List IdEntry := fun xs k => xs.take k

/-- A second concrete population, used to exhibit backend independence. -/
def pop1 : EdgeTable :=
  { name := "edges1"
  , srcPopName := "cellsC"
  , tgtPopName := "cellsD"
  , edges := [(7, 8)]
  , attrNames := []
  , dynNames := []
  , attrDtype := fun _ => Dtype.int64
  , attrVal := fun _ _ => 9
  , dynDtype := fun _ => Dtype.int64
  , dynVal := fun _ _ => 9 }

/-- A second set of deterministic oracles. -/
def oracle1 : Oracles :=
  { pickSource := fun xs => xs.reverse.take 3
  , pickTarget := fun xs => xs.reverse.take 3
  , shufflePrimary := fun xs => xs.reverse
  , shufflePairs := fun _ ps => ps.reverse }

/-- A concrete witness query referencing one unknown and one known
property of `pop0`. -/
def q7 : Query := [.propCond "nope" (.scalar 0), .propCond "weight" (.scalar 1)]

/-- The property names referenced by a `properties` argument. -/
def propNamesOf : Option Properties → List String
  | none => []
  | some (.scalar n) => [n]
  | some (.listP l) => l

/-! ## Helper lemmas -/

lemma all_isInt_map_intId (xs : List Nat) :
    (xs.map IdEntry.intId).all IdEntry.isInt = true := by
  induction xs with
  | nil => rfl
  | cons x xs ih => simp [IdEntry.isInt, ih]

lemma intsOf_map_intId (xs : List Nat) : intsOf (xs.map IdEntry.intId) = xs := by
  induction xs with
  | nil => rfl
  | cons x xs ih => simpa [intsOf] using ih

lemma ensure_ids_map_intId (xs : List Nat) :
    ensure_ids (xs.map IdEntry.intId) = .ok xs := by
  simp [ensure_ids, all_isInt_map_intId, intsOf_map_intId]

/-! ## Claim theorems -/

/-- Claim C8: `ids(None)` (with no sample or limit) returns exactly the
IDs `0 .. size-1`, hence an array of exactly `size` elements in strictly
ascending order. -/
theorem c8_ids_none_all (tbl : EdgeTable)
    (resolve : List Nat → Finset String → Query → List Bool)
    (choose : List IdEntry → Nat → List IdEntry) :
    ids tbl resolve choose .all none none true = .ok (List.range tbl.size)
    ∧ (List.range tbl.size).length = tbl.size
    ∧ (List.range tbl.size).Sorted (· < ·) := by
  refine ⟨?_, List.length_range tbl.size, List.sorted_lt_range tbl.size⟩
  simp [ids, ids_dispatch, select_all, ensure_ids_map_intId]

/-- Claim C3: when either resolved node-ID array is explicitly empty
(non-None), `_iter_connections` yields nothing, and its result does not
depend on the backend or on the random oracles at all (no backend
selection call is consulted). -/
theorem c3_empty_short_circuit (tbl tbl' : EdgeTable) (o o' : Oracles)
    (s t : Option (List Nat)) (u sh : Bool)
    (h : (_is_empty s || _is_empty t) = true) :
    _iter_connections tbl o s t u sh = .ok []
    ∧ _iter_connections tbl o s t u sh = _iter_connections tbl' o' s t u sh := by
  constructor <;> simp [_iter_connections, h]

/-- Claim C3 witness: `source=[]` on the concrete population. -/
theorem c3_empty_short_circuit_witness :
    _iter_connections pop0 oracle0 (some []) (some [5]) true false = .ok []
    ∧ _iter_connections pop0 oracle0 (some []) (some [5]) true false
      = _iter_connections pop1 oracle1 (some []) (some [5]) true false :=
  c3_empty_short_circuit pop0 pop1 oracle0 oracle1 (some []) (some [5]) true false rfl

/-- Claim C2: `_optimal_direction` iterates over the non-None side when
exactly one side is given (target-primary when the source is
unconstrained, source-primary when the target is unconstrained); when both
are given it compares the sampled median index-range counts
(`efferent_edges` ranges for the source side, `afferent_edges` ranges for
the target side, up to 3 sampled node IDs each) and picks the side with
the smaller median. -/
theorem c2_optimal_direction_choice (tbl : EdgeTable) (o : Oracles) :
    (∀ t, _optimal_direction tbl o none (some t) = .ok .target)
    ∧ (∀ s, _optimal_direction tbl o (some s) none = .ok .source)
    ∧ (∀ s t,
        _estimate_range_size (fun i => efferent_edges tbl [i]) s o.pickSource <
          _estimate_range_size (fun i => afferent_edges tbl [i]) t o.pickTarget →
        _optimal_direction tbl o (some s) (some t) = .ok .source)
    ∧ (∀ s t,
        _estimate_range_size (fun i => afferent_edges tbl [i]) t o.pickTarget <
          _estimate_range_size (fun i => efferent_edges tbl [i]) s o.pickSource →
        _optimal_direction tbl o (some s) (some t) = .ok .target) := by
  refine ⟨fun t => rfl, fun s => rfl, fun s t h => ?_, fun s t h => ?_⟩
  · simp [_optimal_direction, h]
  · simp [_optimal_direction, if_neg (lt_asymm h)]

/-- Claim C2 witness: on the concrete population, source node 0 touches
one contiguous range while target node 5 touches two, so the source side
is primary. -/
theorem c2_optimal_direction_choice_witness :
    _optimal_direction pop0 oracle0 (some [0]) (some [5]) = .ok .source :=
  (c2_optimal_direction_choice pop0 oracle0).2.2.1 [0] [5] (by decide)

/-- Claim C10: calling `iter_connections` with both `return_edge_ids` and
`return_edge_count` raises the mutual-exclusivity error eagerly at call
time; calling it with both `source` and `target` unspecified returns the
iterator without raising, and the "either source or target" error
surfaces only when the iterator is first advanced. -/
theorem c10_lazy_invalid_argument (tbl : EdgeTable) (o : Oracles) (u sh : Bool) :
    (∀ s t : Option (List Nat),
      iter_connections tbl o s t u sh true true = .error .mutuallyExclusive)
    ∧ (∀ rei rec : Bool, (rei && rec) = false →
        ∃ it, iter_connections tbl o none none u sh rei rec = .ok it
          ∧ runConnIterator it = .error .sourceOrTargetRequired) := by
  constructor
  · intro s t; rfl
  · intro rei rec h
    refine ⟨{ tbl := tbl, oracles := o, src := none, tgt := none,
              uniqueNodeIds := u, shuffle := sh,
              mode := if rec then .withCount else if rei then .withIds
                      else .plain }, ?_, ?_⟩
    · simp [iter_connections, h]
    · simp [runConnIterator, _iter_connections, _is_empty, _optimal_direction]

/-- Claim C10 witness. -/
theorem c10_lazy_invalid_argument_witness :
    ∃ it, iter_connections pop0 oracle0 none none false false false false = .ok it
      ∧ runConnIterator it = .error .sourceOrTargetRequired :=
  (c10_lazy_invalid_argument pop0 oracle0 false false).2 false false rfl

/-- Claim C4 counterexample: the list `[0, CircuitEdgeId("edges0", 1)]`
mixes an untyped integer with a typed ID, yet `ids` does not fail with the
`InvalidIdType` error ("All values from a list must be of type int or
CircuitEdgeId."): the first element is untyped, so the typed-ID check is
skipped and the failure is the later array-conversion error instead. -/
theorem c4_mixed_list_counterexample :
    ids pop0 resolve0 choose0
        (.other [IdEntry.intId 0, IdEntry.edgeId "edges0" 1]) none none true
      = .error .valueError
    ∧ Err.valueError ≠ Err.invalidIdType :=
  ⟨rfl, by decide⟩

/-- Claim C4 (amended): a list whose FIRST element is a typed
`CircuitEdgeId` and that also contains an untyped element fails with the
`InvalidIdType` error; the check fires only when the head of the list is
typed. -/
theorem c4_mixed_list_typed_head (tbl : EdgeTable)
    (resolve : List Nat → Finset String → Query → List Bool)
    (choose : List IdEntry → Nat → List IdEntry)
    (xs : List IdEntry) (p : String) (i : Nat)
    (hhead : xs.head? = some (IdEntry.edgeId p i))
    (hmixed : ∃ e ∈ xs, e.isInt = true) :
    ids tbl resolve choose (.other xs) none none true = .error .invalidIdType := by
  have hall : xs.all IdEntry.isEdgeId = false := by
    obtain ⟨e, he, hint⟩ := hmixed
    rw [List.all_eq_false]
    refine ⟨e, he, ?_⟩
    cases e with
    | intId j => simp [IdEntry.isEdgeId]
    | edgeId q j => simp [IdEntry.isInt] at hint
  have hd : ids_dispatch tbl resolve true (.other xs) = .error .invalidIdType := by
    simp [ids_dispatch, ids_list_branch, hhead, hall]
  simp [ids, hd]

/-- Claim C4 witness: typed head followed by an untyped element. -/
theorem c4_mixed_list_typed_head_witness :
    ids pop0 resolve0 choose0
        (.other [IdEntry.edgeId "edges0" 1, IdEntry.intId 0]) none none true
      = .error .invalidIdType :=
  c4_mixed_list_typed_head pop0 resolve0 choose0
    [IdEntry.edgeId "edges0" 1, IdEntry.intId 0] "edges0" 1 rfl
    ⟨IdEntry.intId 0, by simp, rfl⟩

/-- Claim C5 counterexample: on an input resolving to zero edge IDs,
`get` with the scalar property `@source_node` returns an empty Series of
dtype float64, while the dtype appropriate to that property (the dtype of
any non-empty result for it) is int64. -/
theorem c5_empty_get_dtype_counterexample :
    EdgeTable.get pop0 resolve0 choose0 (.arr []) (some (.scalar sourceNodeIdName))
      = .ok (.series sourceNodeIdName Dtype.float64 [] [])
    ∧ EdgeTable.get pop0 resolve0 choose0 (.arr [0]) (some (.scalar sourceNodeIdName))
      = .ok (.series sourceNodeIdName Dtype.int64 [0] [0])
    ∧ Dtype.float64 ≠ Dtype.int64 :=
  ⟨rfl, rfl, by decide⟩

/-- Claim C5 (amended): on an input resolving to zero edge IDs, `get`
returns without raising a zero-row result of the correct shape — a
DataFrame whose column set equals the requested property list, or a Series
with the requested name — but the empty Series dtype is always float64
regardless of the property. -/
theorem c5_empty_get_amended (tbl : EdgeTable)
    (resolve : List Nat → Finset String → Query → List Bool)
    (choose : List IdEntry → Nat → List IdEntry) (g : IdsGroup)
    (ps : List String) (p : String)
    (h : ids tbl resolve choose g none none true = .ok []) :
    EdgeTable.get tbl resolve choose g (some (.listP ps))
      = .ok (.frame [] (ps.map (fun q => (q, Dtype.object, ([] : List Int)))))
    ∧ EdgeTable.get tbl resolve choose g (some (.scalar p))
      = .ok (.series p Dtype.float64 [] []) := by
  constructor <;> simp [EdgeTable.get, h, _get]

/-- Claim C5 witness: empty array input on the concrete population. -/
theorem c5_empty_get_amended_witness :
    EdgeTable.get pop0 resolve0 choose0 (.arr []) (some (.listP ["weight", "missing"]))
      = .ok (.frame []
          [("weight", Dtype.object, ([] : List Int)),
           ("missing", Dtype.object, ([] : List Int))])
    ∧ EdgeTable.get pop0 resolve0 choose0 (.arr []) (some (.scalar "weight"))
      = .ok (.series "weight" Dtype.float64 [] []) :=
  c5_empty_get_amended pop0 resolve0 choose0 (.arr []) ["weight", "missing"]
    "weight" rfl

lemma _get_property_error (tbl : EdgeTable) (p : String) (sel : List Nat) (e : Err)
    (h : _get_property tbl p sel = .error e) : e = .noSuchProperty p := by
  unfold _get_property at h
  split at h
  · cases h
  · split at h
    · cases h
    · split at h
      · cases h
      · split at h
        · cases h
        · cases h; rfl

lemma getColumns_error (tbl : EdgeTable) (sel : List Nat) :
    ∀ (ps : List String) (e : Err), getColumns tbl sel ps = .error e →
      ∃ p, e = .noSuchProperty p := by
  intro ps
  induction ps with
  | nil => intro e h; cases h
  | cons p rest ih =>
    intro e h
    unfold getColumns at h
    split at h
    · next heq => cases h; exact ⟨p, _get_property_error tbl p sel e heq⟩
    · split at h
      · next heq => cases h; exact ih e heq
      · cases h

lemma _get_error_shape (tbl : EdgeTable) (sel : List Nat)
    (props : Option Properties) (e : Err)
    (h : _get tbl sel props = .error e) : ∃ p, e = .noSuchProperty p := by
  unfold _get at h
  match props with
  | none => cases h
  | some (.listP ps) =>
    simp only at h
    split at h
    · cases h
    · split at h
      · next heq => cases h; exact getColumns_error tbl sel ps e heq
      · cases h
  | some (.scalar p) =>
    simp only at h
    split at h
    · cases h
    · split at h
      · next heq => cases h; exact ⟨p, _get_property_error tbl p sel e heq⟩
      · cases h

lemma _get_property_ok (tbl : EdgeTable) (p : String) (sel : List Nat)
    (h : p ∈ property_names tbl) : ∃ dv, _get_property tbl p sel = .ok dv := by
  unfold _get_property
  split
  · exact ⟨_, rfl⟩
  · split
    · exact ⟨_, rfl⟩
    · split
      · exact ⟨_, rfl⟩
      · split
        · exact ⟨_, rfl⟩
        · next h1 h2 h3 h4 =>
          exfalso
          unfold property_names at h
          simp only [Finset.mem_union, List.mem_toFinset, Finset.mem_insert,
            Finset.mem_singleton] at h
          rcases h with ((h | h) | (h | h))
          · exact h3 h
          · exact h4 h
          · exact h1 h
          · exact h2 h

lemma getColumns_ok (tbl : EdgeTable) (sel : List Nat) :
    ∀ ps : List String, (∀ p ∈ ps, p ∈ property_names tbl) →
      ∃ cols, getColumns tbl sel ps = .ok cols := by
  intro ps
  induction ps with
  | nil => intro _; exact ⟨[], rfl⟩
  | cons p rest ih =>
    intro h
    obtain ⟨dv, hdv⟩ := _get_property_ok tbl p sel (h p (by simp))
    obtain ⟨cols, hcols⟩ := ih (fun q hq => h q (by simp [hq]))
    refine ⟨(p, dv.1, dv.2) :: cols, ?_⟩
    unfold getColumns
    rw [hdv, hcols]

lemma _get_ok (tbl : EdgeTable) (sel : List Nat) (props : Option Properties)
    (h : ∀ q ∈ propNamesOf props, q ∈ property_names tbl) :
    ∃ r, _get tbl sel props = .ok r := by
  match props with
  | none => exact ⟨_, rfl⟩
  | some (.listP ps) =>
    unfold _get
    simp only
    split
    · exact ⟨_, rfl⟩
    · obtain ⟨cols, hcols⟩ := getColumns_ok tbl sel ps
        (fun q hq => h q (by simpa [propNamesOf] using hq))
      rw [hcols]
      exact ⟨_, rfl⟩
  | some (.scalar p) =>
    unfold _get
    simp only
    split
    · exact ⟨_, rfl⟩
    · obtain ⟨dv, hdv⟩ := _get_property_ok tbl p sel (h p (by simp [propNamesOf]))
      rw [hdv]
      exact ⟨_, rfl⟩

/-- Claim C9: `pathway_edges` raises the "either source or target" error
if and only if both sides are `None`; with exactly one side given it
selects through the matching backend primitive (afferent-only for
target-only, efferent-only for source-only, connecting-edges for both),
and with at least one side given and known property names it returns
normally. -/
theorem c9_pathway_edges_dispatch (tbl : EdgeTable) :
    (∀ (s t : Option (List Nat)) (props : Option Properties),
      pathway_edges tbl s t props = .error .sourceOrTargetRequired
        ↔ s = none ∧ t = none)
    ∧ (∀ t, pathway_edges tbl none (some t) none
        = .ok (.ids (afferent_edges tbl t)))
    ∧ (∀ s, pathway_edges tbl (some s) none none
        = .ok (.ids (efferent_edges tbl s)))
    ∧ (∀ s t, pathway_edges tbl (some s) (some t) none
        = .ok (.ids (connecting_edges tbl s t)))
    ∧ (∀ (s t : Option (List Nat)) (props : Option Properties),
        ¬(s = none ∧ t = none) →
        (∀ q ∈ propNamesOf props, q ∈ property_names tbl) →
        ∃ r, pathway_edges tbl s t props = .ok r) := by
  have hside : ∀ (s t : Option (List Nat)) (props : Option Properties),
      ¬(s = none ∧ t = none) →
      pathway_edges tbl s t props
        = (if propsTruthy props
           then _get tbl (match s, t with
              | none, some v => afferent_edges tbl v
              | some v, none => efferent_edges tbl v
              | some v, some w => connecting_edges tbl v w
              | none, none => []) props
           else .ok (.ids (match s, t with
              | none, some v => afferent_edges tbl v
              | some v, none => efferent_edges tbl v
              | some v, some w => connecting_edges tbl v w
              | none, none => []))) := by
    intro s t props hnn
    match s, t with
    | none, none => exact absurd ⟨rfl, rfl⟩ hnn
    | none, some v => rfl
    | some v, none => rfl
    | some v, some w => rfl
  refine ⟨?_, fun t => rfl, fun s => rfl, fun s t => rfl, ?_⟩
  · intro s t props
    constructor
    · intro h
      by_contra hnn
      rw [hside s t props hnn] at h
      split at h
      · obtain ⟨p, hp⟩ := _get_error_shape tbl _ props _ h
        cases hp
      · cases h
    · rintro ⟨rfl, rfl⟩
      rfl
  · intro s t props hnn hknown
    rw [hside s t props hnn]
    split
    · exact _get_ok tbl _ props hknown
    · exact ⟨_, rfl⟩

/-- Claim C9 witness: source-only selection returns normally through the
efferent primitive, and requesting a known property also succeeds. -/
theorem c9_pathway_edges_dispatch_witness :
    pathway_edges pop0 (some [0]) none none
      = .ok (.ids (efferent_edges pop0 [0]))
    ∧ (∃ r, pathway_edges pop0 (some [0]) none (some (.scalar "weight"))
        = .ok r) :=
  ⟨(c9_pathway_edges_dispatch pop0).2.2.1 [0],
   (c9_pathway_edges_dispatch pop0).2.2.2.2 (some [0]) none
     (some (.scalar "weight")) (by simp)
     (by intro q hq; simp [propNamesOf] at hq; subst hq;
         simp [property_names, pop0])⟩

lemma intsOf_length (xs : List IdEntry) (h : xs.all IdEntry.isInt = true) :
    (intsOf xs).length = xs.length := by
  induction xs with
  | nil => rfl
  | cons x xs ih =>
    simp only [List.all_cons, Bool.and_eq_true] at h
    cases x with
    | intId i => simp only [intsOf, List.filterMap_cons] at ih ⊢; simp [ih h.2]
    | edgeId p i => simp [IdEntry.isInt] at h

lemma intsOf_take (xs : List IdEntry) :
    ∀ l : Nat, xs.all IdEntry.isInt = true →
      intsOf (xs.take l) = (intsOf xs).take l := by
  induction xs with
  | nil => intro l _; simp [intsOf]
  | cons x xs ih =>
    intro l h
    simp only [List.all_cons, Bool.and_eq_true] at h
    cases l with
    | zero => simp [intsOf]
    | succ m =>
      cases x with
      | intId i =>
        simp only [List.take_succ_cons, intsOf, List.filterMap_cons] at ih ⊢
        simp [ih m h.2]
      | edgeId p i => simp [IdEntry.isInt] at h

lemma all_int_of_subset (xs ys : List IdEntry)
    (hsub : ∀ e ∈ ys, e ∈ xs) (h : xs.all IdEntry.isInt = true) :
    ys.all IdEntry.isInt = true := by
  rw [List.all_eq_true] at h ⊢
  exact fun e he => h e (hsub e he)

lemma ensure_ids_of_all_int (xs : List IdEntry) (h : xs.all IdEntry.isInt = true) :
    ensure_ids xs = .ok (intsOf xs) := by
  simp [ensure_ids, h]

/-- Claim C6: post-processing of `ids` applies sampling first and limiting
second, for every group shape: with `sample` given,
`min(sample, len(result))` elements are drawn without replacement (all of
them, in oracle order, when `sample` exceeds the count); the `limit`
truncation to the first `limit` elements is applied afterwards, and leaves
the result unchanged when `limit` exceeds the count. -/
theorem c6_sample_then_limit (tbl : EdgeTable)
    (resolve : List Nat → Finset String → Query → List Bool)
    (choose : List IdEntry → Nat → List IdEntry)
    (g : IdsGroup) (s l : Nat) (rm : Bool) (r : List IdEntry)
    (hc : ∀ xs k, k ≤ xs.length → (choose xs k).length = k ∧ (choose xs k).Subperm xs)
    (hd : ids_dispatch tbl resolve rm g = .ok r)
    (hint : r.all IdEntry.isInt = true) :
    (ids tbl resolve choose g (some l) (some s) rm
      = (ids tbl resolve choose g none (some s) rm).map (fun xs => xs.take l))
    ∧ (∀ xs, ids tbl resolve choose g none (some s) rm = .ok xs →
        xs.length = min s r.length)
    ∧ (r.length ≤ s → ∀ xs, ids tbl resolve choose g none (some s) rm = .ok xs →
        xs.Perm (intsOf r))
    ∧ (r.length ≤ l →
        ids tbl resolve choose g (some l) none rm
          = ids tbl resolve choose g none none rm) := by
  have e1 : ids tbl resolve choose g (some l) (some s) rm
      = ensure_ids ((if 0 < r.length then choose r (min s r.length) else r).take l) := by
    simp [ids, hd]
  have e2 : ids tbl resolve choose g none (some s) rm
      = ensure_ids (if 0 < r.length then choose r (min s r.length) else r) := by
    simp [ids, hd]
  have e3 : ids tbl resolve choose g (some l) none rm = ensure_ids (r.take l) := by
    simp [ids, hd]
  have e4 : ids tbl resolve choose g none none rm = ensure_ids r := by
    simp [ids, hd]
  have hsub : ∀ e ∈ (if 0 < r.length then choose r (min s r.length) else r), e ∈ r := by
    by_cases h0 : 0 < r.length
    · rw [if_pos h0]
      exact fun e he => (hc r (min s r.length) (min_le_right _ _)).2.subset he
    · rw [if_neg h0]
      exact fun e he => he
  have hsint : (if 0 < r.length then choose r (min s r.length) else r).all
      IdEntry.isInt = true := all_int_of_subset r _ hsub hint
  have hslen : (if 0 < r.length then choose r (min s r.length) else r).length
      = min s r.length := by
    by_cases h0 : 0 < r.length
    · rw [if_pos h0]
      exact (hc r (min s r.length) (min_le_right _ _)).1
    · rw [if_neg h0]
      omega
  refine ⟨?_, ?_, ?_, ?_⟩
  · rw [e1, e2, ensure_ids_of_all_int _ hsint,
      ensure_ids_of_all_int _ (all_int_of_subset _ _
        (fun e he => List.take_subset l _ he) hsint),
      intsOf_take _ l hsint]
    rfl
  · intro xs hxs
    rw [e2, ensure_ids_of_all_int _ hsint] at hxs
    injection hxs with hxs
    rw [← hxs, intsOf_length _ hsint, hslen]
  · intro hls xs hxs
    rw [e2, ensure_ids_of_all_int _ hsint] at hxs
    injection hxs with hxs
    subst hxs
    by_cases h0 : 0 < r.length
    · rw [if_pos h0]
      have hmin : min s r.length = r.length := min_eq_right hls
      have hsp : (choose r (min s r.length)).Subperm r :=
        (hc r (min s r.length) (min_le_right _ _)).2
      have hlen : r.length ≤ (choose r (min s r.length)).length := by
        rw [(hc r (min s r.length) (min_le_right _ _)).1, hmin]
      exact (hsp.perm_of_length_le hlen).filterMap _
    · rw [if_neg h0]
  · intro hl
    rw [e3, e4, List.take_of_length_le hl]

/-- Claim C6 witness: a three-element raw array, `sample=2`, `limit=5`. -/
theorem c6_sample_then_limit_witness :
    (ids pop0 resolve0 choose0 (.arr [10, 20, 30]) (some 5) (some 2) true
      = (ids pop0 resolve0 choose0 (.arr [10, 20, 30]) none (some 2) true).map
          (fun xs => xs.take 5))
    ∧ ([10, 20] : List Nat).length
        = min 2 ([IdEntry.intId 10, IdEntry.intId 20, IdEntry.intId 30].length) := by
  have hc : ∀ (xs : List IdEntry) (k : Nat), k ≤ xs.length →
      (choose0 xs k).length = k ∧ (choose0 xs k).Subperm xs := by
    intro xs k hk
    refine ⟨?_, (List.take_sublist k xs).subperm⟩
    simp [choose0, List.length_take]
    omega
  exact ⟨(c6_sample_then_limit pop0 resolve0 choose0 (.arr [10, 20, 30]) 2 5 true
      ([IdEntry.intId 10, IdEntry.intId 20, IdEntry.intId 30]) hc rfl rfl).1,
    (c6_sample_then_limit pop0 resolve0 choose0 (.arr [10, 20, 30]) 2 5 true
      ([IdEntry.intId 10, IdEntry.intId 20, IdEntry.intId 30]) hc rfl rfl).2.1
      [10, 20] rfl⟩

/-- Claim C7: with `raise_missing_property=True` and at least one unknown
referenced property, `_edge_ids_by_filter` fails with the error listing
the full unknown-name set before any chunk is materialized (the
materialization log is empty); with `raise_missing_property=False` it
succeeds and every materialized chunk requests exactly the known
referenced properties. -/
theorem c7_unknown_properties (tbl : EdgeTable)
    (resolve : List Nat → Finset String → Query → List Bool) (q : Query) :
    (getPropsQuery q \ property_names tbl ≠ ∅ →
      _edge_ids_by_filter tbl resolve q true
        = ([], .error (.unknownProperties (getPropsQuery q \ property_names tbl))))
    ∧ (∀ fs ∈ (_edge_ids_by_filter tbl resolve q false).1,
        fs = getPropsQuery q ∩ property_names tbl)
    ∧ (∃ r, (_edge_ids_by_filter tbl resolve q false).2 = .ok r) := by
  refine ⟨fun hub => ?_, ?_, ?_⟩
  · simp [_edge_ids_by_filter, hub]
  · intro fs hfs
    have hlog : (_edge_ids_by_filter tbl resolve q false).1
        = (arraySplit (select_all tbl) (1 + (select_all tbl).length / chunkSize)).map
            (fun _ => getPropsQuery q \ (getPropsQuery q \ property_names tbl)) := by
      simp [_edge_ids_by_filter]
    rw [hlog, List.mem_map] at hfs
    obtain ⟨c, _, hc⟩ := hfs
    rw [← hc, Finset.sdiff_sdiff_self_left]
  · exact ⟨_, rfl⟩

/-- Claim C7 witness: a query referencing the unknown name `nope` and the
known attribute `weight` of the concrete population. -/
theorem c7_unknown_properties_witness :
    _edge_ids_by_filter pop0 resolve0 q7 true
      = ([], .error (.unknownProperties (getPropsQuery q7 \ property_names pop0)))
    ∧ (∃ r, (_edge_ids_by_filter pop0 resolve0 q7 false).2 = .ok r) :=
  ⟨(c7_unknown_properties pop0 resolve0 q7).1 (by decide),
   (c7_unknown_properties pop0 resolve0 q7).2.2⟩

lemma secondaryOf_tripleOf (dir : Direction) (k : Nat) (p : Nat × Nat) :
    secondaryOf dir (tripleOf dir k p) = p.1 := by
  cases dir <;> rfl

lemma primaryOf_tripleOf (dir : Direction) (k : Nat) (p : Nat × Nat) :
    primaryOf dir (tripleOf dir k p) = k := by
  cases dir <;> rfl

lemma emitPairs_true_cases (used : List Nat) (ps : List (Nat × Nat)) :
    emitPairs true used ps = ([], used)
    ∨ ∃ v c, emitPairs true used ps = ([(v, c)], v :: used) ∧ v ∉ used := by
  induction ps with
  | nil => exact Or.inl rfl
  | cons p rest ih =>
    obtain ⟨v, c⟩ := p
    by_cases h : v ∈ used
    · have hstep : emitPairs true used ((v, c) :: rest) = emitPairs true used rest := by
        simp [emitPairs, h]
      rw [hstep]
      exact ih
    · refine Or.inr ⟨v, c, ?_, h⟩
      simp [emitPairs, h]

lemma iterLoop_unique_spec (tbl : EdgeTable) (o : Oracles) (dir : Direction)
    (sec : Option (List Nat)) (sh : Bool) :
    ∀ (primary used : List Nat),
      (((iterLoop tbl o dir sec true sh primary used).map (secondaryOf dir)).Nodup
        ∧ (∀ x ∈ (iterLoop tbl o dir sec true sh primary used).map (secondaryOf dir),
            x ∉ used))
      ∧ ((∀ x ∈ (iterLoop tbl o dir sec true sh primary used).map (primaryOf dir),
            x ∈ primary)
        ∧ (primary.Nodup →
            ((iterLoop tbl o dir sec true sh primary used).map (primaryOf dir)).Nodup)) := by
  intro primary
  induction primary with
  | nil =>
    intro used
    simp [iterLoop]
  | cons k rest ih =>
    intro used
    have hstep : iterLoop tbl o dir sec true sh (k :: rest) used =
        (emitPairs true used (candidatePairs tbl o dir sec sh k)).1.map (tripleOf dir k)
          ++ iterLoop tbl o dir sec true sh rest
              (emitPairs true used (candidatePairs tbl o dir sec sh k)).2 := by
      simp [iterLoop]
    rcases emitPairs_true_cases used (candidatePairs tbl o dir sec sh k) with
      hE | ⟨v, c, hE, hv⟩
    · rw [hstep, hE]
      simp only [List.map_nil, List.nil_append]
      refine ⟨⟨(ih used).1.1, (ih used).1.2⟩, ?_, ?_⟩
      · exact fun x hx => List.mem_cons_of_mem k ((ih used).2.1 x hx)
      · intro hnd
        exact (ih used).2.2 (List.nodup_cons.mp hnd).2
    · rw [hstep, hE]
      simp only [List.map_cons, List.map_nil, List.singleton_append, List.map_append,
        secondaryOf_tripleOf, primaryOf_tripleOf, List.nodup_cons, List.mem_cons]
      have ihv := ih (v :: used)
      refine ⟨⟨⟨?_, ihv.1.1⟩, ?_⟩, ?_, ?_⟩
      · intro hmem
        exact ihv.1.2 v hmem (List.mem_cons_self v used)
      · intro x hx
        rcases hx with rfl | hx
        · exact hv
        · exact fun hu => ihv.1.2 x hx (List.mem_cons_of_mem v hu)
      · intro x hx
        rcases hx with rfl | hx
        · exact Or.inl rfl
        · exact Or.inr (ihv.2.1 x hx)
      · intro hnd
        exact ⟨fun hk => hnd.1 (ihv.2.1 k hk), ihv.2.2 hnd.2⟩

/-- Claim C1: with `unique_node_ids=True`, no secondary-side node ID
appears in more than one yielded connection tuple across the whole
iteration, and each primary-side node ID contributes at most one yielded
pair — whatever the yielded triples are, both their source projections and
their target projections are duplicate-free. -/
theorem c1_unique_node_ids_sound (tbl : EdgeTable) (o : Oracles)
    (s t : Option (List Nat)) (sh : Bool) (out : List (Nat × Nat × Nat))
    (hperm : ∀ xs, (o.shufflePrimary xs).Perm xs)
    (hout : _iter_connections tbl o s t true sh = .ok out) :
    (out.map (fun x => x.1)).Nodup ∧ (out.map (fun x => x.2.1)).Nodup := by
  by_cases hemp : (_is_empty s || _is_empty t) = true
  · have hrun : _iter_connections tbl o s t true sh = .ok [] := by
      unfold _iter_connections
      rw [if_pos hemp]
    rw [hrun] at hout
    injection hout with h
    subst h
    simp
  · rcases hdir : _optimal_direction tbl o s t with e | dir
    · have hrun : _iter_connections tbl o s t true sh = .error e := by
        unfold _iter_connections
        rw [if_neg hemp, hdir]
      rw [hrun] at hout
      cases hout
    · cases dir with
      | target =>
        have hrun : _iter_connections tbl o s t true sh
            = .ok (iterLoop tbl o Direction.target (Option.map npUnique s) true sh
                (if sh then o.shufflePrimary (npUnique (t.getD []))
                 else npUnique (t.getD [])) []) := by
          unfold _iter_connections
          rw [if_neg hemp, hdir]
        rw [hrun] at hout
        injection hout with h
        subst h
        have hP : (if sh then o.shufflePrimary (npUnique (t.getD []))
            else npUnique (t.getD [])).Nodup := by
          cases sh with
          | false => exact List.nodup_dedup _
          | true => exact (hperm _).symm.nodup (List.nodup_dedup _)
        have spec := iterLoop_unique_spec tbl o Direction.target
          (Option.map npUnique s) sh
          (if sh then o.shufflePrimary (npUnique (t.getD []))
           else npUnique (t.getD [])) []
        have h1 : (fun x : Nat × Nat × Nat => x.1) = secondaryOf Direction.target := rfl
        have h2 : (fun x : Nat × Nat × Nat => x.2.1) = primaryOf Direction.target := rfl
        rw [h1, h2]
        exact ⟨spec.1.1, spec.2.2 hP⟩
      | source =>
        have hrun : _iter_connections tbl o s t true sh
            = .ok (iterLoop tbl o Direction.source (Option.map npUnique t) true sh
                (if sh then o.shufflePrimary (npUnique (s.getD []))
                 else npUnique (s.getD [])) []) := by
          unfold _iter_connections
          rw [if_neg hemp, hdir]
        rw [hrun] at hout
        injection hout with h
        subst h
        have hP : (if sh then o.shufflePrimary (npUnique (s.getD []))
            else npUnique (s.getD [])).Nodup := by
          cases sh with
          | false => exact List.nodup_dedup _
          | true => exact (hperm _).symm.nodup (List.nodup_dedup _)
        have spec := iterLoop_unique_spec tbl o Direction.source
          (Option.map npUnique t) sh
          (if sh then o.shufflePrimary (npUnique (s.getD []))
           else npUnique (s.getD [])) []
        have h1 : (fun x : Nat × Nat × Nat => x.1) = primaryOf Direction.source := rfl
        have h2 : (fun x : Nat × Nat × Nat => x.2.1) = secondaryOf Direction.source := rfl
        rw [h1, h2]
        exact ⟨spec.2.2 hP, spec.1.1⟩

/-- Claim C1 witness: iterating `source=[0,3]`, `target=None` with
`unique_node_ids=True` on the concrete population yields only
`(0, 5, 2)`: node 3 also projects to node 5, but 5 was already used. -/
theorem c1_unique_node_ids_sound_witness :
    (([((0 : Nat), (5 : Nat), (2 : Nat))]).map (fun x => x.1)).Nodup
    ∧ (([((0 : Nat), (5 : Nat), (2 : Nat))]).map (fun x => x.2.1)).Nodup :=
  c1_unique_node_ids_sound pop0 oracle0 (some [0, 3]) none false [(0, 5, 2)]
    (fun xs => List.Perm.refl xs) rfl
